import Mathlib

/-!
Shallow embedding of the torrent acquisition and delivery engine:
the torrent service (queue worker, file selection inside a torrent,
noPeers / download / done event handlers, cleanup, item lookup) and the
two revisions of the HTTP watch handler (recursive file listing, media
file picking, range parsing and byte-range streaming, stream source
selection).  JavaScript strings are modelled as Lean strings, JS numbers
arising from parseInt as Option Int (none plays the role of NaN), and
the mongo store writes as explicit patch records.
-/

set_option linter.unusedVariables false

/-! ## JavaScript string primitives -/

/-- Leading-match test: the first list is an initial segment of the second
(used to model substring search the way String.prototype.includes does). -/
def charsLeadMatch : List Char → List Char → Bool
  | [], _ => true
  | _ :: _, [] => false
  | p :: ps, c :: cs => p = c && charsLeadMatch ps cs

/-- Does the pattern occur contiguously anywhere in the list? -/
def charsContain (pat : List Char) : List Char → Bool
  | [] => charsLeadMatch pat []
  | c :: cs => charsLeadMatch pat (c :: cs) || charsContain pat cs

/-- JS s.includes(sub): case-sensitive contiguous substring test. -/
def jsIncludes (s sub : String) : Bool :=
  charsContain sub.data s.data

/-- Remove the first occurrence of the pattern, as s.replace(/pat/, '') does. -/
def removeFirstOcc (pat : List Char) : List Char → List Char
  | [] => []
  | c :: cs =>
    if charsLeadMatch pat (c :: cs) then List.drop pat.length (c :: cs)
    else c :: removeFirstOcc pat cs

/-- JS str.split('-'): split on every dash, keeping empty pieces. -/
def splitOnDash : List Char → List (List Char)
  | [] => [[]]
  | c :: cs =>
    if c = '-' then [] :: splitOnDash cs
    else
      match splitOnDash cs with
      | [] => [[c]]
      | p :: ps => (c :: p) :: ps

/-- JS parseInt(str, 10): skip spaces, optional sign, longest digit run;
none models NaN (no digits at all). -/
def jsParseInt (s : String) : Option Int :=
  let chars := s.data.dropWhile (fun c => c = ' ')
  let signAndRest : Int × List Char :=
    match chars with
    | '-' :: cs => (-1, cs)
    | '+' :: cs => (1, cs)
    | cs => (1, cs)
  let digits := signAndRest.2.takeWhile Char.isDigit
  if digits.isEmpty then none
  else some (signAndRest.1 * ((digits.foldl (fun acc c => acc * 10 + (c.toNat - 48)) 0 : Nat) : Int))

/-- Stringification of a JS number that may be NaN. -/
def jsNumStr : Option Int → String
  | some i => toString i
  | none => "NaN"

/-- JS addition with NaN propagation. -/
def jsAdd : Option Int → Option Int → Option Int
  | some a, some b => some (a + b)
  | _, _ => none

/-- JS subtraction with NaN propagation. -/
def jsSub : Option Int → Option Int → Option Int
  | some a, some b => some (a - b)
  | _, _ => none

/-! ## Torrent service: supported formats and per-torrent file selection
(part_000, TorrentService.handleTorrent, lines 272-298) -/

/-- TorrentService.supportedFormats. -/
def supportedFormats : List String := ["mp4", "ogg", "mov", "webmv", "mkv", "wmv", "avi"]

/-- One file inside a torrent: its name and byte length. -/
structure TFile where
  name : String
  length : Nat
deriving DecidableEq, Repr

instance : Inhabited TFile := ⟨⟨"", 0⟩⟩

/-- The per-file guard of the reduce:
supportedFormats.find(format => current.name.includes(format)). -/
def isSupportedName (formats : List String) (f : TFile) : Bool :=
  formats.any (fun format => jsIncludes f.name format)

/-- Point update of the selection flags (file.deselect() / file.select()). -/
def setSel (sel : Nat → Bool) (i : Nat) (b : Bool) : Nat → Bool :=
  fun j => if j = i then b else sel j

/-- The reduce of torrent.files with its index argument, carried out on the
remaining files: previous is the pair (file, torrentIndex); a supported and
strictly longer current file replaces (and deselects) the accumulator,
every other current file is deselected. -/
def selectLoop (formats : List String) :
    List TFile → Nat → TFile × Nat → (Nat → Bool) → (TFile × Nat) × (Nat → Bool)
  | [], _, acc, sel => (acc, sel)
  | f :: fs, i, (accFile, accIdx), sel =>
    if isSupportedName formats f && decide (f.length > accFile.length) then
      selectLoop formats fs (i + 1) (f, i) (setSel sel accIdx false)
    else
      selectLoop formats fs (i + 1) (accFile, accIdx) (setSel sel i false)

/-- File selection of handleTorrent: reduce over torrent.files seeded with
{file: torrent.files[0], torrentIndex: 0}, then file.select() on the result.
All files start selected; the returned flags are the final selection state.
none corresponds to an empty file list (the source would fault on files[0]). -/
def handleTorrentSelect (formats : List String) (files : List TFile) :
    Option ((TFile × Nat) × (Nat → Bool)) :=
  match files with
  | [] => none
  | f0 :: _ =>
    let r := selectLoop formats files 0 (f0, 0) (fun _ => true)
    some (r.1, setSel r.2 r.1.2 true)

/-! ## Torrent service: worker state and event handlers (part_000) -/

/-- The slice of in-memory and persisted state one worker's event handlers
touch: the Download record status, the parent item's download sub-document,
the torrents array (ids of live handles), the pending queue, existence of
the persisted record and of the per-download directory, the magnets held by
the web torrent client, and the worker's completion signal. -/
structure NPState where
  downloadStatus : String
  itemDownloadStatus : String
  itemDownloading : Bool
  torrents : List String
  downloadsQueue : List String
  recordExists : Bool
  dirExists : Bool
  clientMagnets : List String
  resolved : Bool
deriving DecidableEq, Repr

/-- TorrentService.removeFromTorrents: filter the handle of this download
out of torrents. -/
def removeFromTorrents (id : String) (st : NPState) : NPState :=
  { st with torrents := st.torrents.filter (fun torId => torId ≠ id) }

/-- TorrentService.cleanUpDownload: download.delete(), removal from the
downloads queue, rimraf of the download location. -/
def cleanUpDownload (id : String) (st : NPState) : NPState :=
  let st1 := { st with recordExists := false }
  let st2 := { st1 with downloadsQueue := st1.downloadsQueue.filter (fun downId => downId ≠ id) }
  { st2 with dirExists := false }

/-- The noPeers handler of handleTorrent (part_000 lines 317-346):
only for announceType 'dht' it marks the Download failed, mirrors failure
into the parent item, removes the handle, cleans up the download, removes
the magnet from the client and resolves; otherwise it does nothing. -/
def onNoPeers (id magnetUrl announceType : String) (st : NPState) : NPState :=
  if announceType = "dht" then
    let st1 := { st with downloadStatus := "failed" }
    let st2 := { st1 with itemDownloadStatus := "failed", itemDownloading := false }
    let st3 := removeFromTorrents id st2
    let st4 := cleanUpDownload id st3
    let st5 := { st4 with clientMagnets := st4.clientMagnets.filter (fun url => url ≠ magnetUrl) }
    { st5 with resolved := true }
  else st

/-- JS Number.prototype.toFixed(1) on a non-negative progress value,
read back as a number: round half up to one decimal. -/
def toFixed1 (q : ℚ) : ℚ :=
  ((⌊q * 10 + 5 / 10⌋ : ℤ) : ℚ) / 10

/-- The fields the download event handler reads off the torrent. -/
structure TorrentStats where
  progress : ℚ
  numPeers : Int
  timeRemaining : Int
  downloadSpeed : Int
deriving DecidableEq, Repr

/-- The lastUpdate object plus the two latches the handlers close over. -/
structure LastUpdate where
  progress : Option ℚ
  numPeers : Option Int
deriving DecidableEq, Repr

structure TickLatches where
  lastUpdate : LastUpdate
  updatingModel : Bool
  updatedItem : Bool
deriving DecidableEq, Repr

/-- One write to the persisted Download record. -/
structure DownloadWrite where
  progress : ℚ
  status : String
  timeRemaining : Option Int
  speed : Option Int
  numPeers : Option Int
deriving DecidableEq, Repr

/-- One write to the parent item's download sub-document. -/
structure ItemWrite where
  downloadStatus : String
  downloading : Bool
deriving DecidableEq, Repr

/-- The download (progress tick) handler of handleTorrent (part_000 lines
348-392).  Condition: first tick, or more than 0.5 points above the last
accepted tick, or a changed peer count.  An accepted tick always refreshes
lastUpdate; the store write is skipped while updatingModel is set, and the
item write happens once, guarded by updatedItem. -/
def onDownloadTick (st : TickLatches) (t : TorrentStats) :
    TickLatches × Option DownloadWrite × Option ItemWrite :=
  let newProgress := t.progress * 100
  if st.lastUpdate.progress = none
      ∨ st.lastUpdate.progress.getD 0 + 5 / 10 < newProgress
      ∨ st.lastUpdate.numPeers ≠ some t.numPeers then
    let lastUpdate1 : LastUpdate := { progress := some newProgress, numPeers := some t.numPeers }
    let dlWrite : Option DownloadWrite :=
      if st.updatingModel = false then
        some { progress := toFixed1 newProgress
               status := "downloading"
               timeRemaining := some t.timeRemaining
               speed := some t.downloadSpeed
               numPeers := some t.numPeers }
      else none
    let itemWrite : Option ItemWrite :=
      if st.updatedItem = false then
        some { downloadStatus := "downloading", downloading := true }
      else none
    ({ lastUpdate := lastUpdate1
       updatingModel := st.updatingModel
       updatedItem := st.updatedItem || itemWrite.isSome }, dlWrite, itemWrite)
  else (st, none, none)

/-- The Download record write of the done handler (part_000 lines 403-409). -/
def doneDownloadWrite : DownloadWrite :=
  { progress := 100, status := "complete", timeRemaining := none, speed := none, numPeers := none }

/-- The done handler of handleTorrent (part_000 lines 394-427): remove the
handle, drop the download from the queue, persist completion on the record
and on the parent item, remove the magnet from the client, resolve. -/
def onDone (id magnetUrl : String) (st : NPState) : NPState × DownloadWrite × ItemWrite :=
  let st1 := removeFromTorrents id st
  let st2 := { st1 with downloadsQueue := st1.downloadsQueue.filter (fun downId => downId ≠ id) }
  let st3 := { st2 with downloadStatus := "complete",
                        itemDownloadStatus := "complete", itemDownloading := false }
  let st4 := { st3 with clientMagnets := st3.clientMagnets.filter (fun url => url ≠ magnetUrl) }
  ({ st4 with resolved := true },
   doneDownloadWrite,
   { downloadStatus := "complete", downloading := false })

/-! ## Torrent service: the download worker entry and item lookup -/

/-- The persisted Download fields the worker reads. -/
structure DownloadRec where
  _id : String
  itemType : String
  quality : String
deriving DecidableEq, Repr

structure MagnetRec where
  quality : String
  url : String
deriving DecidableEq, Repr

/-- The parent item as the worker sees it: its torrents list. -/
structure ItemRec where
  _id : String
  torrents : List MagnetRec
deriving DecidableEq, Repr

/-- A store write issued by the download method. -/
inductive StoreWrite where
  | downloadStatusFailed
  | itemStatusFailed
  | itemConnecting
  | downloadConnecting
deriving DecidableEq, Repr

/-- Observable outcome of one call to TorrentService.download up to the
hand-off to the web torrent client: whether the promise resolved without
further work, the store writes issued, the magnet urls passed to
webTorrent.add, and the ids the torrent-ready callback will push onto
torrents. -/
structure DownloadOutcome where
  resolvedImmediately : Bool
  writes : List StoreWrite
  peerAdds : List String
  torrentsPushed : List String
deriving DecidableEq, Repr

/-- TorrentService.download (part_000 lines 195-262).  If the download has
been removed from the queue in the meanwhile it resolves with no effect;
with no magnet matching the quality it records failure on both records and
resolves; otherwise it writes connecting status and hands the magnet to the
client (handleTorrent later pushes the handle). -/
def download (downloads : List DownloadRec) (d : DownloadRec) (item : ItemRec) :
    DownloadOutcome :=
  let downloadStillExists := downloads.find? (fun down => down._id = d._id)
  if downloadStillExists.isNone then
    { resolvedImmediately := true, writes := [], peerAdds := [], torrentsPushed := [] }
  else
    match item.torrents.find? (fun torrent => torrent.quality = d.quality) with
    | none =>
      { resolvedImmediately := true
        writes := [StoreWrite.downloadStatusFailed, StoreWrite.itemStatusFailed]
        peerAdds := []
        torrentsPushed := [] }
    | some magnet =>
      { resolvedImmediately := false
        writes := [StoreWrite.itemConnecting, StoreWrite.downloadConnecting]
        peerAdds := [magnet.url]
        torrentsPushed := [d._id] }

/-- The two collections getItemForDownload can address. -/
inductive ItemCollection where
  | movies
  | episodes
deriving DecidableEq, Repr

/-- TorrentService.getItemForDownload (part_000 lines 500-506): route by
itemType and look the item up by the download's own id. -/
def getItemForDownload (d : DownloadRec) : ItemCollection × String :=
  ((if d.itemType = "movie" then ItemCollection.movies else ItemCollection.episodes), d._id)

/-! ## Watch handlers: filesystem model and recursive listing
(getFiles of both controller revisions) -/

/-- A directory entry as fs.readdirSync with withFileTypes sees it. -/
inductive FSNode where
  | file : String → FSNode
  | dir : String → List FSNode → FSNode

mutual
/-- getFiles on one dirent: path.resolve(dir, name), recursing into
directories. -/
def getFilesFrom (d : String) : FSNode → List String
  | FSNode.file name => [d ++ "/" ++ name]
  | FSNode.dir name children => getFilesList (d ++ "/" ++ name) children
/-- getFiles on a directory listing, depth first, concatenated. -/
def getFilesList (d : String) : List FSNode → List String
  | [] => []
  | c :: cs => getFilesFrom d c ++ getFilesList d cs
end

/-! ## Watch handlers: request, state and response model -/

/-- The parts of the HTTP request the watch handlers read. -/
structure WatchRequest where
  _id : String
  rangeHeader : Option String
  device : Option String
  transcode : Bool
deriving DecidableEq, Repr

/-- A live entry of torrentService.torrents as the handler uses it:
the id and the bytes readable through the handle's chosen file. -/
structure TorrentHandleEntry where
  _id : String
  fileBytes : List Nat
deriving DecidableEq, Repr

/-- The environment a watch call runs against: download root, directory
table (none for a missing directory, where readdirSync throws), on-disk
file contents by path, the live torrents array, and the ffprobe outcome. -/
structure WatchState where
  root : String
  dirs : String → Option (List FSNode)
  disk : String → List Nat
  torrents : List TorrentHandleEntry
  probeOk : Bool
  videoCodec : String

/-- Where the response body is read from. -/
inductive StreamSrc where
  | torrentFile : String → StreamSrc
  | fsFile : String → StreamSrc
deriving DecidableEq, Repr

/-- The {start, end} object handed to createReadStream; fields are JS
numbers that may be NaN. -/
structure JSStreamOpts where
  start : Option Int
  stop : Option Int
deriving DecidableEq, Repr

/-- The observable response: status, the headers the handlers set, the
stream source and options, the bytes read from that source, whether the
body went through the ffmpeg transcode pipe, and (controller.ts revision)
whether a priority read stream was opened on the live torrent. -/
structure WatchResponse where
  status : Nat
  contentRange : Option String
  acceptRanges : Option String
  contentLength : Option String
  contentType : Option String
  source : Option StreamSrc
  streamOptions : Option JSStreamOpts
  streamBytes : List Nat
  transcoded : Bool
  torrentPriorityOpened : Bool
deriving DecidableEq, Repr

/-- The 404 reply res.status(404); res.send(). -/
def notFoundResponse : WatchResponse :=
  { status := 404, contentRange := none, acceptRanges := none, contentLength := none
    contentType := none, source := none, streamOptions := none, streamBytes := []
    transcoded := false, torrentPriorityOpened := false }

/-- createReadStream(bytes, options): null options read everything; start
and end are validated non-negative with start at most end (Node throws
ERR_OUT_OF_RANGE otherwise, as it does on NaN); end is inclusive and
clipped at EOF. -/
def streamRead (bytes : List Nat) : Option JSStreamOpts → Except String (List Nat)
  | none => Except.ok bytes
  | some opts =>
    match opts.start, opts.stop with
    | some s, some e =>
      if 0 ≤ s ∧ s ≤ e then Except.ok ((bytes.drop s.toNat).take (e - s + 1).toNat)
      else Except.error "ERR_OUT_OF_RANGE"
    | _, _ => Except.error "ERR_OUT_OF_RANGE"

/-- The inclusive byte slice [a..b] of a list, the spec's N[a..b]. -/
def listSlice (a b : Nat) (l : List Nat) : List Nat :=
  (l.drop a).take (b + 1 - a)

/-! ## Watch handlers: range header parsing
(req.headers.range.replace(/bytes=/, '').split('-'), parseInt) -/

/-- The parts array of the range header. -/
def rangeParts (range : String) : List String :=
  (splitOnDash (removeFirstOcc "bytes=".data range.data)).map (fun cs => String.mk cs)

/-- parts[0] (undefined cannot occur: split yields at least one piece). -/
def startPartOf (range : String) : String :=
  (rangeParts range).headD ""

/-- parts[1]; a missing piece and an empty piece are both falsy. -/
def endPartOf (range : String) : String :=
  (rangeParts range).getD 1 ""

/-- const start = parseInt(partialStart, 10). -/
def parseRangeStart (range : String) : Option Int :=
  jsParseInt (startPartOf range)

/-- const end = partialEnd ? parseInt(partialEnd, 10) : mediaSize - 1. -/
def parseRangeEnd (mediaSize : Nat) (range : String) : Option Int :=
  if endPartOf range ≠ "" then jsParseInt (endPartOf range)
  else some ((mediaSize : Int) - 1)

/-! ## Watch handlers: media file picking (the files.reduce of both
revisions, differing only in the per-file filter) -/

/-- One step of files.reduce((previous, current) => ...). -/
def mediaFileStep (isSup : String → Bool) (previous : Option String) (current : String) :
    Option String :=
  if isSup current then
    match previous with
    | none => some current
    | some p => if current.length > p.length then some current else some p
  else previous

/-- files.reduce(..., null): pick the first longest path satisfying the
filter. -/
def reduceMediaFile (isSup : String → Bool) (files : List String) : Option String :=
  files.foldl (mediaFileStep isSup) none

/-- The filter of the part_001 revision:
supportedFormats.find(format => current.includes(format)). -/
def isPlayable1 (current : String) : Bool :=
  supportedFormats.any (fun format => jsIncludes current format)

/-- The filter of the watch.controller.ts revision:
supportedFormats.find(format => current.includes(format) &&
!current.includes('transcoding')). -/
def isPlayable2 (current : String) : Bool :=
  supportedFormats.any (fun format => jsIncludes current format && !jsIncludes current "transcoding")

/-- The survivor predicate in the spec's words: passes the playable
extension filter and the path does not contain 'transcoding'. -/
def claimSurvivor (f : String) : Bool :=
  isPlayable1 f && !jsIncludes f "transcoding"

/-! ## The watch handler, part_001 revision: range responses, live torrent
source selection and the ffmpeg transcode gate -/

namespace Part001

/-- GET watch/:_id of the part_001 revision.  An error models an exception
escaping the handler (readdirSync on a missing directory, createReadStream
on invalid options); otherwise the observable response is returned. -/
def watch (st : WatchState) (req : WatchRequest) : Except String WatchResponse :=
  let folderLocation := st.root ++ "/" ++ req._id
  match st.dirs folderLocation with
  | none => Except.error "ENOENT"
  | some entries =>
    let files := getFilesList folderLocation entries
    if files.length = 0 then Except.ok notFoundResponse
    else
      match reduceMediaFile isPlayable1 files with
      | none => Except.ok notFoundResponse
      | some mediaFile =>
        let mediaSize := (st.disk mediaFile).length
        let streamOptions : Option JSStreamOpts :=
          match req.rangeHeader with
          | some range => some { start := parseRangeStart range
                                 stop := parseRangeEnd mediaSize range }
          | none => none
        let torrent := st.torrents.find? (fun tor => tor._id = req._id)
        let sourceBytes : List Nat :=
          match torrent with
          | some tor => tor.fileBytes
          | none => st.disk mediaFile
        match streamRead sourceBytes streamOptions with
        | Except.error e => Except.error e
        | Except.ok body =>
          let src : StreamSrc :=
            match torrent with
            | some _ => StreamSrc.torrentFile req._id
            | none => StreamSrc.fsFile mediaFile
          let base : WatchResponse :=
            match req.rangeHeader with
            | some range =>
              let startV := parseRangeStart range
              let endV := parseRangeEnd mediaSize range
              let chunkSize := jsAdd (jsSub endV startV) (some 1)
              { status := 206
                contentRange := some ("bytes " ++ jsNumStr startV ++ "-" ++ jsNumStr endV
                  ++ "/" ++ jsNumStr chunkSize)
                acceptRanges := some "bytes"
                contentLength := some (jsNumStr chunkSize)
                contentType := some "video/mp4"
                source := some src
                streamOptions := streamOptions
                streamBytes := body
                transcoded := false
                torrentPriorityOpened := false }
            | none =>
              { status := 200
                contentRange := none
                acceptRanges := none
                contentLength := some (toString mediaSize)
                contentType := some "video/mp4"
                source := some src
                streamOptions := none
                streamBytes := body
                transcoded := false
                torrentPriorityOpened := false }
          let isChromeCast := req.device = some "chromecast"
          let forceTranscoding := req.transcode
          if isChromeCast || forceTranscoding then
            if st.probeOk then
              Except.ok { base with transcoded := forceTranscoding || st.videoCodec = "hevc" }
            else Except.ok base
          else Except.ok base

end Part001

/-! ## The watch handler, watch.controller.ts revision: the transcoding
exclusion in the picker, a range branch dead under an and-false conjunct,
a priority read stream on the live torrent, body always from the disk -/

namespace WatchCtrlTs

/-- GET watch/:_id of the watch.controller.ts revision. -/
def watch (st : WatchState) (req : WatchRequest) : Except String WatchResponse :=
  let folderLocation := st.root ++ "/" ++ req._id
  match st.dirs folderLocation with
  | none => Except.error "ENOENT"
  | some entries =>
    let files := getFilesList folderLocation entries
    if files.length = 0 then Except.ok notFoundResponse
    else
      match reduceMediaFile isPlayable2 files with
      | none => Except.ok notFoundResponse
      | some mediaFile =>
        let mediaSize := (st.disk mediaFile).length
        let streamOptions : Option JSStreamOpts :=
          if req.rangeHeader.isSome && false then
            match req.rangeHeader with
            | some range => some { start := parseRangeStart range
                                   stop := parseRangeEnd mediaSize range }
            | none => none
          else none
        let torrent := st.torrents.find? (fun tor => tor._id = req._id)
        match streamRead (st.disk mediaFile) streamOptions with
        | Except.error e => Except.error e
        | Except.ok body =>
          Except.ok
            { status := 200
              contentRange := none
              acceptRanges := none
              contentLength := none
              contentType := some "video/mp4"
              source := some (StreamSrc.fsFile mediaFile)
              streamOptions := streamOptions
              streamBytes := body
              transcoded := false
              torrentPriorityOpened := torrent.isSome }

end WatchCtrlTs

/-! ## Claims about the torrent service -/

/-- C10: getItemForDownload queries the Movies collection exactly when
itemType equals 'movie', queries the Episodes collection for every other
itemType value, and uses the download's own id as the lookup key. -/
theorem c10_getItemForDownload_routing (d : DownloadRec) :
    ((getItemForDownload d).1 = ItemCollection.movies ↔ d.itemType = "movie") ∧
    ((getItemForDownload d).1 = ItemCollection.episodes ↔ d.itemType ≠ "movie") ∧
    (getItemForDownload d).2 = d._id := by
  unfold getItemForDownload
  by_cases h : d.itemType = "movie" <;> simp [h]

/-- C9: when the download's id is no longer present in downloads at the
moment the worker claims it, download resolves immediately with no store
write, no peer client add and no torrents entry. -/
theorem c9_download_removed_no_effect (downloads : List DownloadRec) (d : DownloadRec)
    (item : ItemRec)
    (h : downloads.find? (fun down => down._id = d._id) = none) :
    download downloads d item =
      { resolvedImmediately := true, writes := [], peerAdds := [], torrentsPushed := [] } := by
  unfold download
  simp [h]

/-- Witness for C9 at a concrete removed download. -/
theorem c9_download_removed_no_effect_witness :
    ([] : List DownloadRec).find? (fun down => down._id = ("d1" : String)) = none ∧
    download [] ⟨"d1", "movie", "720p"⟩ ⟨"d1", []⟩ =
      { resolvedImmediately := true, writes := [], peerAdds := [], torrentsPushed := [] } :=
  ⟨by decide, c9_download_removed_no_effect [] ⟨"d1", "movie", "720p"⟩ ⟨"d1", []⟩ (by decide)⟩

/-- C3: a noPeers event with source 'dht' on an active download marks the
Download failed, mirrors failure and downloading false into the parent
item, leaves no handle for the id in torrents, deletes the record and its
directory (cleanUpDownload), removes the magnet url from the client and
resolves the worker's completion; a noPeers event with any other source
changes nothing. -/
theorem c3_noPeers_dht_cleanup (st : NPState) (id magnetUrl : String)
    (h : st.downloadStatus = "connecting" ∨ st.downloadStatus = "downloading") :
    ((onNoPeers id magnetUrl "dht" st).downloadStatus = "failed" ∧
     (onNoPeers id magnetUrl "dht" st).itemDownloadStatus = "failed" ∧
     (onNoPeers id magnetUrl "dht" st).itemDownloading = false ∧
     (∀ torId ∈ (onNoPeers id magnetUrl "dht" st).torrents, torId ≠ id) ∧
     (onNoPeers id magnetUrl "dht" st).recordExists = false ∧
     (onNoPeers id magnetUrl "dht" st).dirExists = false ∧
     (onNoPeers id magnetUrl "dht" st).clientMagnets
       = st.clientMagnets.filter (fun url => url ≠ magnetUrl) ∧
     (onNoPeers id magnetUrl "dht" st).resolved = true) ∧
    (∀ announceType, announceType ≠ "dht" → onNoPeers id magnetUrl announceType st = st) := by
  constructor
  · unfold onNoPeers removeFromTorrents cleanUpDownload
    simp only [if_pos rfl]
    refine ⟨rfl, rfl, rfl, ?_, rfl, rfl, rfl, rfl⟩
    intro torId hmem
    simpa using (List.of_mem_filter hmem)
  · intro announceType ha
    unfold onNoPeers
    simp [ha]

/-- Witness for C3 at a concrete downloading state. -/
theorem c3_noPeers_dht_cleanup_witness :
    ((⟨"downloading", "downloading", true, ["x", "y"], ["y", "z"], true, true,
        ["magnet:a", "magnet:b"], false⟩ : NPState).downloadStatus = "connecting" ∨
     (⟨"downloading", "downloading", true, ["x", "y"], ["y", "z"], true, true,
        ["magnet:a", "magnet:b"], false⟩ : NPState).downloadStatus = "downloading") ∧
    (((onNoPeers "y" "magnet:b" "dht"
        ⟨"downloading", "downloading", true, ["x", "y"], ["y", "z"], true, true,
          ["magnet:a", "magnet:b"], false⟩).downloadStatus = "failed" ∧
      (onNoPeers "y" "magnet:b" "dht"
        ⟨"downloading", "downloading", true, ["x", "y"], ["y", "z"], true, true,
          ["magnet:a", "magnet:b"], false⟩).itemDownloadStatus = "failed" ∧
      (onNoPeers "y" "magnet:b" "dht"
        ⟨"downloading", "downloading", true, ["x", "y"], ["y", "z"], true, true,
          ["magnet:a", "magnet:b"], false⟩).itemDownloading = false ∧
      (∀ torId ∈ (onNoPeers "y" "magnet:b" "dht"
        ⟨"downloading", "downloading", true, ["x", "y"], ["y", "z"], true, true,
          ["magnet:a", "magnet:b"], false⟩).torrents, torId ≠ "y") ∧
      (onNoPeers "y" "magnet:b" "dht"
        ⟨"downloading", "downloading", true, ["x", "y"], ["y", "z"], true, true,
          ["magnet:a", "magnet:b"], false⟩).recordExists = false ∧
      (onNoPeers "y" "magnet:b" "dht"
        ⟨"downloading", "downloading", true, ["x", "y"], ["y", "z"], true, true,
          ["magnet:a", "magnet:b"], false⟩).dirExists = false ∧
      (onNoPeers "y" "magnet:b" "dht"
        ⟨"downloading", "downloading", true, ["x", "y"], ["y", "z"], true, true,
          ["magnet:a", "magnet:b"], false⟩).clientMagnets
        = (["magnet:a", "magnet:b"] : List String).filter (fun url => url ≠ "magnet:b") ∧
      (onNoPeers "y" "magnet:b" "dht"
        ⟨"downloading", "downloading", true, ["x", "y"], ["y", "z"], true, true,
          ["magnet:a", "magnet:b"], false⟩).resolved = true) ∧
     (∀ announceType, announceType ≠ "dht" →
        onNoPeers "y" "magnet:b" announceType
          ⟨"downloading", "downloading", true, ["x", "y"], ["y", "z"], true, true,
            ["magnet:a", "magnet:b"], false⟩
          = ⟨"downloading", "downloading", true, ["x", "y"], ["y", "z"], true, true,
              ["magnet:a", "magnet:b"], false⟩)) :=
  ⟨Or.inr rfl,
   c3_noPeers_dht_cleanup
     ⟨"downloading", "downloading", true, ["x", "y"], ["y", "z"], true, true,
       ["magnet:a", "magnet:b"], false⟩ "y" "magnet:b" (Or.inr rfl)⟩

/-- Any Download write the progress tick handler emits is the downloading
patch built from the tick, and it is emitted only with the latch clear. -/
lemma onDownloadTick_write_eq (st : TickLatches) (t : TorrentStats) (w : DownloadWrite)
    (hw : (onDownloadTick st t).2.1 = some w) :
    w = { progress := toFixed1 (t.progress * 100), status := "downloading",
          timeRemaining := some t.timeRemaining, speed := some t.downloadSpeed,
          numPeers := some t.numPeers } ∧ st.updatingModel = false := by
  unfold onDownloadTick at hw
  by_cases hc : (st.lastUpdate.progress = none
      ∨ st.lastUpdate.progress.getD 0 + 5 / 10 < t.progress * 100
      ∨ st.lastUpdate.numPeers ≠ some t.numPeers)
  · rw [if_pos hc] at hw
    by_cases hu : st.updatingModel = false
    · simp only [hu, if_pos rfl] at hw
      simp at hw
      exact ⟨hw.symm, hu⟩
    · simp only [if_neg hu] at hw
      simp at hw
  · rw [if_neg hc] at hw
    simp at hw

/-- toFixed1 rounds to 100 exactly on values of at least 99.95 (for
percentages at most 100). -/
lemma toFixed1_eq_100_iff (q : ℚ) (hq : q ≤ 100) : toFixed1 q = 100 ↔ 9995 / 100 ≤ q := by
  unfold toFixed1
  have h10 : (10 : ℚ) ≠ 0 := by norm_num
  rw [div_eq_iff h10]
  have hcast : (100 : ℚ) * 10 = ((1000 : ℤ) : ℚ) := by norm_num
  rw [hcast, Int.cast_inj, Int.floor_eq_iff]
  constructor
  · rintro ⟨h1, _⟩
    push_cast at h1
    linarith
  · intro h
    constructor
    · push_cast
      linarith
    · push_cast
      linarith

/-- C4 counterexample: a progress tick at 99.96 percent (torrent.progress
2499/2500) persists progress 100 together with status downloading, a store
write with progress 100 and a non-complete status. -/
theorem c4_progress_status_counterexample :
    (onDownloadTick ⟨⟨some 99, some 3⟩, false, true⟩ ⟨2499 / 2500, 3, 1000, 2000⟩).2.1 =
      some ⟨100, "downloading", some 1000, some 2000, some 3⟩ ∧
    ("downloading" : String) ≠ "complete" := by
  refine ⟨?_, by decide⟩
  unfold onDownloadTick
  rw [if_pos (Or.inr (Or.inl (by norm_num)))]
  have hfx : toFixed1 (2499 / 2500 * 100) = 100 := by
    unfold toFixed1
    have hfl : ⌊(2499 / 2500 * 100 * 10 + 5 / 10 : ℚ)⌋ = 1000 := by
      rw [Int.floor_eq_iff]
      constructor
      · push_cast
        norm_num
      · push_cast
        norm_num
    rw [hfl]
    norm_num
  simp [hfx]

/-- C4 amended: every write of the done handler has progress 100 and
status complete; a write of the progress tick handler always carries
status downloading with progress rounded to one decimal, and that rounded
progress equals 100 (breaking the claimed equivalence) exactly when the
tick's percentage is at least 99.95. -/
theorem c4_progress_status_amended (st : TickLatches) (t : TorrentStats) (w : DownloadWrite)
    (hw : (onDownloadTick st t).2.1 = some w) (hp : t.progress ≤ 1) :
    w.status = "downloading" ∧
    w.progress = toFixed1 (t.progress * 100) ∧
    (w.progress = 100 ↔ 9995 / 100 ≤ t.progress * 100) ∧
    doneDownloadWrite.progress = 100 ∧ doneDownloadWrite.status = "complete" := by
  obtain ⟨hw', hu⟩ := onDownloadTick_write_eq st t w hw
  subst hw'
  have h100 : t.progress * 100 ≤ 100 := by
    calc t.progress * 100 ≤ 1 * 100 := mul_le_mul_of_nonneg_right hp (by norm_num)
    _ = 100 := by norm_num
  exact ⟨rfl, rfl, toFixed1_eq_100_iff _ h100, rfl, rfl⟩

/-- Witness for the amended C4 at a tick of 50 percent. -/
theorem c4_progress_status_amended_witness :
    ((onDownloadTick ⟨⟨none, none⟩, false, false⟩ ⟨1 / 2, 4, 7, 8⟩).2.1 =
        some ⟨50, "downloading", some 7, some 8, some 4⟩ ∧
      (⟨1 / 2, 4, 7, 8⟩ : TorrentStats).progress ≤ 1) ∧
    (((⟨50, "downloading", some 7, some 8, some 4⟩ : DownloadWrite)).status = "downloading" ∧
      ((⟨50, "downloading", some 7, some 8, some 4⟩ : DownloadWrite)).progress
        = toFixed1 ((1 / 2 : ℚ) * 100) ∧
      (((⟨50, "downloading", some 7, some 8, some 4⟩ : DownloadWrite)).progress = 100 ↔
        (9995 / 100 : ℚ) ≤ 1 / 2 * 100) ∧
      doneDownloadWrite.progress = 100 ∧ doneDownloadWrite.status = "complete") := by
  have hfx : toFixed1 ((1 / 2 : ℚ) * 100) = 50 := by
    unfold toFixed1
    have hfl : ⌊((1 / 2 : ℚ) * 100 * 10 + 5 / 10)⌋ = 500 := by
      rw [Int.floor_eq_iff]
      constructor
      · push_cast
        norm_num
      · push_cast
        norm_num
    rw [hfl]
    norm_num
  have hfx50 : toFixed1 ((2 : ℚ)⁻¹ * 100) = 50 := by
    rw [show ((2 : ℚ)⁻¹ * 100) = ((1 / 2 : ℚ) * 100) by norm_num]
    exact hfx
  have hw : (onDownloadTick ⟨⟨none, none⟩, false, false⟩ ⟨1 / 2, 4, 7, 8⟩).2.1 =
      some ⟨50, "downloading", some 7, some 8, some 4⟩ := by
    unfold onDownloadTick
    rw [if_pos (Or.inl rfl)]
    simp [hfx, hfx50]
  have hp : ((⟨1 / 2, 4, 7, 8⟩ : TorrentStats)).progress ≤ 1 := by norm_num
  exact ⟨⟨hw, hp⟩,
    c4_progress_status_amended ⟨⟨none, none⟩, false, false⟩ ⟨1 / 2, 4, 7, 8⟩
      ⟨50, "downloading", some 7, some 8, some 4⟩ hw hp⟩

/-- C5 counterexample: with the latch clear, an unchanged peer count and a
tick that advances progress by exactly 0.5 points (10.0 to 10.5), the
handler pushes nothing, though the claim requires a push at an advance of
at least 0.5. -/
theorem c5_tick_coalescing_counterexample :
    (onDownloadTick ⟨⟨some 10, some 5⟩, false, true⟩ ⟨21 / 200, 5, 0, 0⟩).2.1 = none ∧
    (5 / 10 : ℚ) ≤ 21 / 200 * 100 - 10 ∧
    ((⟨⟨some 10, some 5⟩, false, true⟩ : TickLatches)).updatingModel = false ∧
    ((⟨⟨some 10, some 5⟩, false, true⟩ : TickLatches)).lastUpdate.numPeers = some 5 ∧
    ((⟨21 / 200, 5, 0, 0⟩ : TorrentStats)).numPeers = 5 := by
  refine ⟨?_, by norm_num, rfl, rfl, rfl⟩
  unfold onDownloadTick
  rw [if_neg]
  push_neg
  refine ⟨by simp, ?_, rfl⟩
  simp only [Option.getD_some]
  norm_num

/-- C5 amended: after the first accepted tick, the handler pushes a
Download store write exactly when the latch is clear and either progress
advanced strictly more than 0.5 points over the last accepted tick or the
peer count changed; an accepted tick refreshes the comparison reference
even when the latch drops the write. -/
theorem c5_tick_coalescing_amended (st : TickLatches) (t : TorrentStats) (p : ℚ)
    (hp : st.lastUpdate.progress = some p) :
    ((onDownloadTick st t).2.1.isSome = true ↔
      ((p + 5 / 10 < t.progress * 100 ∨ st.lastUpdate.numPeers ≠ some t.numPeers) ∧
        st.updatingModel = false)) ∧
    ((p + 5 / 10 < t.progress * 100 ∨ st.lastUpdate.numPeers ≠ some t.numPeers) →
      (onDownloadTick st t).1.lastUpdate =
        { progress := some (t.progress * 100), numPeers := some t.numPeers }) := by
  unfold onDownloadTick
  by_cases hc : (p + 5 / 10 < t.progress * 100 ∨ st.lastUpdate.numPeers ≠ some t.numPeers)
  · have hcond : (st.lastUpdate.progress = none
        ∨ st.lastUpdate.progress.getD 0 + 5 / 10 < t.progress * 100
        ∨ st.lastUpdate.numPeers ≠ some t.numPeers) := by
      rcases hc with h | h
      · exact Or.inr (Or.inl (by rw [hp]; simpa using h))
      · exact Or.inr (Or.inr h)
    rw [if_pos hcond]
    constructor
    · by_cases hu : st.updatingModel = false
      · simp [hu, hc]
      · simp [hu, hc]
    · intro _
      rfl
  · have hcond : ¬ (st.lastUpdate.progress = none
        ∨ st.lastUpdate.progress.getD 0 + 5 / 10 < t.progress * 100
        ∨ st.lastUpdate.numPeers ≠ some t.numPeers) := by
      push_neg at hc ⊢
      refine ⟨by rw [hp]; simp, by rw [hp]; simpa using hc.1, hc.2⟩
    rw [if_neg hcond]
    constructor
    · simp [hc]
    · intro h
      exact absurd h hc

/-- Witness for the amended C5 at a tick with a changed peer count. -/
theorem c5_tick_coalescing_amended_witness :
    ((⟨⟨some 10, some 5⟩, false, true⟩ : TickLatches)).lastUpdate.progress = some 10 ∧
    (((onDownloadTick ⟨⟨some 10, some 5⟩, false, true⟩ ⟨11 / 100, 6, 0, 0⟩).2.1.isSome = true ↔
        (((10 : ℚ) + 5 / 10 < 11 / 100 * 100 ∨
          ((⟨⟨some 10, some 5⟩, false, true⟩ : TickLatches)).lastUpdate.numPeers ≠ some 6) ∧
          ((⟨⟨some 10, some 5⟩, false, true⟩ : TickLatches)).updatingModel = false)) ∧
      (((10 : ℚ) + 5 / 10 < 11 / 100 * 100 ∨
          ((⟨⟨some 10, some 5⟩, false, true⟩ : TickLatches)).lastUpdate.numPeers ≠ some 6) →
        (onDownloadTick ⟨⟨some 10, some 5⟩, false, true⟩ ⟨11 / 100, 6, 0, 0⟩).1.lastUpdate =
          { progress := some ((11 / 100 : ℚ) * 100), numPeers := some 6 })) :=
  ⟨rfl, c5_tick_coalescing_amended ⟨⟨some 10, some 5⟩, false, true⟩ ⟨11 / 100, 6, 0, 0⟩ 10 rfl⟩

/-! ## C2: characterizing the file selection of handleTorrent -/

/-- Index lookup just past an append. -/
lemma getElemQ_append_cons {α : Type} (done : List α) (f : α) (fs : List α) :
    (done ++ f :: fs)[done.length]? = some f := by
  rw [List.getElem?_append_right (le_refl done.length)]
  simp

/-- What the selection loop guarantees: the chosen pair is a valid index of
the files, the chosen file is the seed or a supported file, its length
dominates the seed and every supported file, and only the chosen index may
still be selected among in-range positions. -/
def SelectInv (formats : List String) (files : List TFile) (f0 : TFile)
    (r : (TFile × Nat) × (Nat → Bool)) : Prop :=
  files[r.1.2]? = some r.1.1 ∧
  (r.1.2 = 0 ∨ isSupportedName formats r.1.1 = true) ∧
  f0.length ≤ r.1.1.length ∧
  (∀ f ∈ files, isSupportedName formats f = true → f.length ≤ r.1.1.length) ∧
  (∀ i, i < files.length → r.2 i = true → i = r.1.2)

/-- Invariant preservation along the reduce of handleTorrent. -/
lemma selectLoop_inv (formats : List String) (files : List TFile) (f0 : TFile) :
    ∀ (rest done : List TFile) (accFile : TFile) (accIdx : Nat) (sel : Nat → Bool),
      files = done ++ rest →
      files[accIdx]? = some accFile →
      accIdx ≤ done.length →
      (accIdx = 0 ∨ isSupportedName formats accFile = true) →
      f0.length ≤ accFile.length →
      (∀ f ∈ done, isSupportedName formats f = true → f.length ≤ accFile.length) →
      (∀ i, sel i = true → i = accIdx ∨ done.length ≤ i) →
      (∀ i, done.length ≤ i → sel i = true) →
      SelectInv formats files f0 (selectLoop formats rest done.length (accFile, accIdx) sel) := by
  intro rest
  induction rest with
  | nil =>
    intro done accFile accIdx sel hsplit hget hle hsup hf0 hdone hselA hselB
    simp only [selectLoop]
    refine ⟨hget, hsup, hf0, ?_, ?_⟩
    · intro f hf hsupf
      refine hdone f ?_ hsupf
      rw [hsplit] at hf
      simpa using hf
    · intro i hi hsel
      rcases hselA i hsel with h | h
      · exact h
      · rw [hsplit] at hi
        simp at hi
        omega
  | cons f fs ih =>
    intro done accFile accIdx sel hsplit hget hle hsup hf0 hdone hselA hselB
    have hgetf : files[done.length]? = some f := by
      rw [hsplit]
      exact getElemQ_append_cons done f fs
    by_cases hg : (isSupportedName formats f && decide (f.length > accFile.length)) = true
    · have hgs : isSupportedName formats f = true := ((Bool.and_eq_true _ _).mp hg).1
      have hglt : accFile.length < f.length := by
        have := ((Bool.and_eq_true _ _).mp hg).2
        simpa using this
    -- taken branch: the accumulator moves to (f, done.length)
      rw [selectLoop, if_pos hg]
      have hlen : done.length + 1 = (done ++ [f]).length := by simp
      rw [hlen]
      refine ih (done ++ [f]) f done.length (setSel sel accIdx false) ?_ ?_ ?_ ?_ ?_ ?_ ?_ ?_
      · rw [hsplit]
        simp
      · exact hgetf
      · simp
      · exact Or.inr hgs
      · exact le_trans hf0 (le_of_lt hglt)
      · intro g hgmem hgsup
        rcases List.mem_append.mp hgmem with hgd | hgf
        · exact le_trans (hdone g hgd hgsup) (le_of_lt hglt)
        · simp at hgf
          subst hgf
          exact le_refl _
      · intro i hseli
        unfold setSel at hseli
        by_cases hia : i = accIdx
        · rw [if_pos hia] at hseli
          exact absurd hseli (by simp)
        · rw [if_neg hia] at hseli
          rcases hselA i hseli with h | h
          · exact absurd h hia
          · simp
            omega
      · intro i hi
        simp at hi
        unfold setSel
        have hia : i ≠ accIdx := by omega
        rw [if_neg hia]
        exact hselB i (by omega)
    · rw [selectLoop, if_neg hg]
      have hlen : done.length + 1 = (done ++ [f]).length := by simp
      rw [hlen]
      refine ih (done ++ [f]) accFile accIdx (setSel sel done.length false) ?_ ?_ ?_ ?_ ?_ ?_ ?_ ?_
      · rw [hsplit]
        simp
      · exact hget
      · simp
        omega
      · exact hsup
      · exact hf0
      · intro g hgmem hgsup
        rcases List.mem_append.mp hgmem with hgd | hgf
        · exact hdone g hgd hgsup
        · simp at hgf
          subst hgf
          rcases Bool.and_eq_false_iff.mp (Bool.eq_false_iff.mpr hg) with hns | hnl
          · exact absurd hgsup (by simp [hns])
          · have hnlt : ¬ (accFile.length < g.length) := by
              intro hlt
              simp [hlt] at hnl
            omega
      · intro i hseli
        unfold setSel at hseli
        by_cases hin : i = done.length
        · rw [if_pos hin] at hseli
          exact absurd hseli (by simp)
        · rw [if_neg hin] at hseli
          rcases hselA i hseli with h | h
          · exact Or.inl h
          · simp
            omega
      · intro i hi
        simp at hi
        unfold setSel
        have hin : i ≠ done.length := by omega
        rw [if_neg hin]
        exact hselB i (by omega)

/-- C2 counterexample: in a torrent whose first file 'readme.txt' (100
bytes) matches no allow-list entry while 'movie.mp4' (50 bytes) does, the
reduce keeps the unsupported first file selected and deselects the
matching file, contradicting the claim that exactly the matching file of
largest byte length is selected. -/
theorem c2_select_largest_counterexample :
    (handleTorrentSelect supportedFormats
        [⟨"readme.txt", 100⟩, ⟨"movie.mp4", 50⟩]).map (fun r => r.1) =
      some (⟨"readme.txt", 100⟩, 0) ∧
    (handleTorrentSelect supportedFormats
        [⟨"readme.txt", 100⟩, ⟨"movie.mp4", 50⟩]).map (fun r => r.2 1) = some false ∧
    isSupportedName supportedFormats ⟨"movie.mp4", 50⟩ = true ∧
    isSupportedName supportedFormats ⟨"readme.txt", 100⟩ = false := by
  refine ⟨by decide, by decide, by decide, by decide⟩

/-- C2 amended: matching is by case-sensitive substring against the
allow-list; the reduce, seeded with the first file, selects a file whose
byte length is maximal among the first file together with all matching
files (the chosen file is the first file or a matching one, and when no
file matches it is exactly the first file); every other file ends up
deselected. -/
theorem c2_select_largest_amended (files : List TFile) (f0 : TFile) (tl : List TFile)
    (hf : files = f0 :: tl) :
    ∃ chosen idx sel,
      handleTorrentSelect supportedFormats files = some ((chosen, idx), sel) ∧
      files[idx]? = some chosen ∧
      f0.length ≤ chosen.length ∧
      (∀ f ∈ files, isSupportedName supportedFormats f = true → f.length ≤ chosen.length) ∧
      (idx = 0 ∨ isSupportedName supportedFormats chosen = true) ∧
      ((∀ f ∈ files, isSupportedName supportedFormats f = false) → idx = 0 ∧ chosen = f0) ∧
      (∀ i, i < files.length → sel i = decide (i = idx)) := by
  subst hf
  have hinv := selectLoop_inv supportedFormats (f0 :: tl) f0 (f0 :: tl) [] f0 0
      (fun _ => true) rfl (by simp) (by simp) (Or.inl rfl) (le_refl _)
      (by intro f hf hs; simp at hf) (by intro i _; exact Or.inr (Nat.zero_le i))
      (by intro i _; rfl)
  simp only [List.length_nil] at hinv
  obtain ⟨hget, hsup, hf0, hmax, hsel⟩ := hinv
  refine ⟨(selectLoop supportedFormats (f0 :: tl) 0 (f0, 0) (fun _ => true)).1.1,
          (selectLoop supportedFormats (f0 :: tl) 0 (f0, 0) (fun _ => true)).1.2,
          setSel (selectLoop supportedFormats (f0 :: tl) 0 (f0, 0) (fun _ => true)).2
            (selectLoop supportedFormats (f0 :: tl) 0 (f0, 0) (fun _ => true)).1.2 true,
          rfl, hget, hf0, hmax, hsup, ?_, ?_⟩
  · intro hnone
    have hidx : (selectLoop supportedFormats (f0 :: tl) 0 (f0, 0) (fun _ => true)).1.2 = 0 := by
      rcases hsup with h | h
      · exact h
      · have hmem := List.getElem?_mem hget
        exact absurd h (by simp [hnone _ hmem])
    refine ⟨hidx, ?_⟩
    rw [hidx] at hget
    have := hget
    simp at this
    exact this.symm
  · intro i hi
    unfold setSel
    by_cases hii : i = (selectLoop supportedFormats (f0 :: tl) 0 (f0, 0) (fun _ => true)).1.2
    · rw [if_pos hii]
      simp [hii]
    · rw [if_neg hii]
      by_cases hb : (selectLoop supportedFormats (f0 :: tl) 0 (f0, 0) (fun _ => true)).2 i = true
      · exact absurd (hsel i hi hb) hii
      · simp [hii]
        exact Bool.eq_false_iff.mpr hb

/-- Witness for the amended C2 on the counterexample torrent. -/
theorem c2_select_largest_amended_witness :
    ([⟨"readme.txt", 100⟩, ⟨"movie.mp4", 50⟩] : List TFile)
        = ⟨"readme.txt", 100⟩ :: [⟨"movie.mp4", 50⟩] ∧
    (∃ chosen idx sel,
      handleTorrentSelect supportedFormats [⟨"readme.txt", 100⟩, ⟨"movie.mp4", 50⟩]
          = some ((chosen, idx), sel) ∧
      ([⟨"readme.txt", 100⟩, ⟨"movie.mp4", 50⟩] : List TFile)[idx]? = some chosen ∧
      (⟨"readme.txt", 100⟩ : TFile).length ≤ chosen.length ∧
      (∀ f ∈ ([⟨"readme.txt", 100⟩, ⟨"movie.mp4", 50⟩] : List TFile),
          isSupportedName supportedFormats f = true → f.length ≤ chosen.length) ∧
      (idx = 0 ∨ isSupportedName supportedFormats chosen = true) ∧
      ((∀ f ∈ ([⟨"readme.txt", 100⟩, ⟨"movie.mp4", 50⟩] : List TFile),
          isSupportedName supportedFormats f = false) → idx = 0 ∧ chosen = ⟨"readme.txt", 100⟩) ∧
      (∀ i, i < ([⟨"readme.txt", 100⟩, ⟨"movie.mp4", 50⟩] : List TFile).length →
          sel i = decide (i = idx))) :=
  ⟨rfl, c2_select_largest_amended [⟨"readme.txt", 100⟩, ⟨"movie.mp4", 50⟩]
    ⟨"readme.txt", 100⟩ [⟨"movie.mp4", 50⟩] rfl⟩

/-! ## C6 and C8: the media file picker and the 404 paths of the watch
handlers -/

/-- Pulling a constant conjunct out of List.any. -/
lemma any_and_const (l : List String) (p : String → Bool) (c : Bool) :
    (l.any fun x => p x && c) = (l.any p && c) := by
  induction l with
  | nil => simp
  | cons x xs ih =>
    simp only [List.any_cons, ih]
    cases c <;> cases p x <;> simp

/-- The watch.controller.ts filter equals the spec's survivor predicate. -/
lemma isPlayable2_eq_claimSurvivor (f : String) : isPlayable2 f = claimSurvivor f := by
  unfold isPlayable2 claimSurvivor isPlayable1
  exact any_and_const supportedFormats (fun format => jsIncludes f format) (!jsIncludes f "transcoding")

/-- The reduce yields nothing exactly when no file passes the filter. -/
lemma mediaFile_foldl_none (isSup : String → Bool) (files : List String) :
    ∀ acc, List.foldl (mediaFileStep isSup) acc files = none ↔
      (acc = none ∧ ∀ f ∈ files, isSup f = false) := by
  induction files with
  | nil => intro acc; simp
  | cons f fs ih =>
    intro acc
    rw [List.foldl_cons, ih]
    constructor
    · rintro ⟨hstep, hall⟩
      unfold mediaFileStep at hstep
      by_cases hs : isSup f = true
      · rw [if_pos hs] at hstep
        cases acc with
        | none => simp at hstep
        | some p =>
          by_cases hl : f.length > p.length <;> simp [hl] at hstep
      · rw [if_neg hs] at hstep
        refine ⟨hstep, ?_⟩
        intro g hg
        rcases List.mem_cons.mp hg with rfl | hgfs
        · exact Bool.eq_false_iff.mpr hs
        · exact hall g hgfs
    · rintro ⟨hnone, hall⟩
      subst hnone
      have hf : isSup f = false := hall f (List.mem_cons_self f fs)
      refine ⟨?_, ?_⟩
      · unfold mediaFileStep
        rw [if_neg (by simp [hf])]
      · intro g hg
        exact hall g (List.mem_cons_of_mem f hg)

/-- A step on a supported file always produces some file at least as long. -/
lemma mediaFileStep_sup (isSup : String → Bool) (acc : Option String) (f : String)
    (hs : isSup f = true) :
    ∃ q, mediaFileStep isSup acc f = some q ∧ f.length ≤ q.length := by
  unfold mediaFileStep
  rw [if_pos hs]
  cases acc with
  | none => exact ⟨f, rfl, le_refl _⟩
  | some p =>
    by_cases hl : f.length > p.length
    · exact ⟨f, by simp [hl], le_refl _⟩
    · exact ⟨p, by simp [hl], by omega⟩

/-- A step never shrinks an existing accumulator. -/
lemma mediaFileStep_acc (isSup : String → Bool) (acc : Option String) (f p : String)
    (hp : acc = some p) :
    ∃ q, mediaFileStep isSup acc f = some q ∧ p.length ≤ q.length := by
  subst hp
  unfold mediaFileStep
  by_cases hs : isSup f = true
  · rw [if_pos hs]
    by_cases hl : f.length > p.length
    · exact ⟨f, by simp [hl], by omega⟩
    · exact ⟨p, by simp [hl], le_refl _⟩
  · rw [if_neg hs]
    exact ⟨p, rfl, le_refl _⟩

/-- What the reduce guarantees when it yields a file: the file came from
the list through the filter (or was the accumulator) and its path length
dominates every filtered file and the accumulator. -/
lemma mediaFile_foldl_some (isSup : String → Bool) (files : List String) :
    ∀ acc m, List.foldl (mediaFileStep isSup) acc files = some m →
      ((isSup m = true ∧ m ∈ files) ∨ acc = some m) ∧
      (∀ f ∈ files, isSup f = true → f.length ≤ m.length) ∧
      (∀ p, acc = some p → p.length ≤ m.length) := by
  induction files with
  | nil =>
    intro acc m h
    simp at h
    refine ⟨Or.inr h, by simp, ?_⟩
    intro p hp
    rw [h] at hp
    cases hp
    exact le_refl _
  | cons f fs ih =>
    intro acc m h
    rw [List.foldl_cons] at h
    obtain ⟨hor, hall, hacc⟩ := ih (mediaFileStep isSup acc f) m h
    refine ⟨?_, ?_, ?_⟩
    · rcases hor with ⟨hm, hmem⟩ | heq
      · exact Or.inl ⟨hm, List.mem_cons_of_mem f hmem⟩
      · unfold mediaFileStep at heq
        by_cases hs : isSup f = true
        · rw [if_pos hs] at heq
          cases acc with
          | none =>
            simp at heq
            subst heq
            exact Or.inl ⟨hs, List.mem_cons_self f fs⟩
          | some p =>
            by_cases hl : f.length > p.length
            · simp [hl] at heq
              subst heq
              exact Or.inl ⟨hs, List.mem_cons_self f fs⟩
            · simp [hl] at heq
              subst heq
              exact Or.inr rfl
        · rw [if_neg hs] at heq
          exact Or.inr heq
    · intro g hg hgs
      rcases List.mem_cons.mp hg with rfl | hgfs
      · obtain ⟨q, hq, hgq⟩ := mediaFileStep_sup isSup acc g hgs
        exact le_trans hgq (hacc q hq)
      · exact hall g hgfs hgs
    · intro p hp
      obtain ⟨q, hq, hpq⟩ := mediaFileStep_acc isSup acc f p hp
      exact le_trans hpq (hacc q hq)

/-- C6: for every watch request over an existing directory, the media file
picker of the watch.controller.ts revision considers exactly the files
passing the playable extension filter whose path does not contain the
substring 'transcoding': it yields nothing exactly when no file survives
(in which case the handler responds 404), and any picked file is a
survivor whose path length is maximal among the survivors. -/
theorem c6_media_picker (st : WatchState) (req : WatchRequest) (entries : List FSNode)
    (hdir : st.dirs (st.root ++ "/" ++ req._id) = some entries) :
    (reduceMediaFile isPlayable2 (getFilesList (st.root ++ "/" ++ req._id) entries) = none ↔
      (getFilesList (st.root ++ "/" ++ req._id) entries).filter claimSurvivor = []) ∧
    (∀ mf, reduceMediaFile isPlayable2 (getFilesList (st.root ++ "/" ++ req._id) entries)
        = some mf →
      mf ∈ (getFilesList (st.root ++ "/" ++ req._id) entries).filter claimSurvivor ∧
      ∀ f ∈ (getFilesList (st.root ++ "/" ++ req._id) entries).filter claimSurvivor,
        f.length ≤ mf.length) ∧
    ((getFilesList (st.root ++ "/" ++ req._id) entries).filter claimSurvivor = [] →
      WatchCtrlTs.watch st req = Except.ok notFoundResponse) := by
  refine ⟨?_, ?_, ?_⟩
  · rw [reduceMediaFile, mediaFile_foldl_none, List.filter_eq_nil_iff]
    constructor
    · rintro ⟨-, hall⟩ f hf
      rw [← isPlayable2_eq_claimSurvivor]
      simp [hall f hf]
    · intro hall
      refine ⟨rfl, ?_⟩
      intro f hf
      have := hall f hf
      rw [← isPlayable2_eq_claimSurvivor] at this
      simpa using this
  · intro mf hmf
    rw [reduceMediaFile] at hmf
    obtain ⟨hor, hall, -⟩ := mediaFile_foldl_some isPlayable2 _ none mf hmf
    rcases hor with ⟨hm, hmem⟩ | heq
    · refine ⟨List.mem_filter.mpr ⟨hmem, by rw [← isPlayable2_eq_claimSurvivor]; exact hm⟩, ?_⟩
      intro f hf
      have hfm := List.mem_filter.mp hf
      exact hall f hfm.1 (by rw [isPlayable2_eq_claimSurvivor]; exact hfm.2)
    · exact absurd heq (by simp)
  · intro hnil
    have hnone : reduceMediaFile isPlayable2 (getFilesList (st.root ++ "/" ++ req._id) entries)
        = none := by
      rw [reduceMediaFile, mediaFile_foldl_none]
      refine ⟨rfl, ?_⟩
      intro f hf
      have := (List.filter_eq_nil_iff.mp hnil) f hf
      rw [← isPlayable2_eq_claimSurvivor] at this
      simpa using this
    unfold WatchCtrlTs.watch
    simp only [hdir]
    by_cases hlen : (getFilesList (st.root ++ "/" ++ req._id) entries).length = 0
    · simp [hlen]
    · simp [hlen, hnone]

/-- Witness for C6 on a directory holding only a transcoding artifact. -/
theorem c6_media_picker_witness :
    (fun (_ : String) => some [FSNode.file "transcoding-video.mp4"]) ("/dl" ++ "/" ++ "m1")
        = some [FSNode.file "transcoding-video.mp4"] ∧
    ((reduceMediaFile isPlayable2
        (getFilesList ("/dl" ++ "/" ++ "m1") [FSNode.file "transcoding-video.mp4"]) = none ↔
      (getFilesList ("/dl" ++ "/" ++ "m1") [FSNode.file "transcoding-video.mp4"]).filter
        claimSurvivor = []) ∧
    (∀ mf, reduceMediaFile isPlayable2
        (getFilesList ("/dl" ++ "/" ++ "m1") [FSNode.file "transcoding-video.mp4"]) = some mf →
      mf ∈ (getFilesList ("/dl" ++ "/" ++ "m1") [FSNode.file "transcoding-video.mp4"]).filter
        claimSurvivor ∧
      ∀ f ∈ (getFilesList ("/dl" ++ "/" ++ "m1") [FSNode.file "transcoding-video.mp4"]).filter
          claimSurvivor, f.length ≤ mf.length) ∧
    ((getFilesList ("/dl" ++ "/" ++ "m1") [FSNode.file "transcoding-video.mp4"]).filter
        claimSurvivor = [] →
      WatchCtrlTs.watch ⟨"/dl", (fun _ => some [FSNode.file "transcoding-video.mp4"]),
          (fun _ => [7, 7]), [], false, ""⟩ ⟨"m1", none, none, false⟩
        = Except.ok notFoundResponse)) :=
  ⟨rfl, c6_media_picker ⟨"/dl", (fun _ => some [FSNode.file "transcoding-video.mp4"]),
      (fun _ => [7, 7]), [], false, ""⟩ ⟨"m1", none, none, false⟩
      [FSNode.file "transcoding-video.mp4"] rfl⟩

/-- C8 counterexample: when the per-download directory does not exist,
readdirSync throws (modelled as an ENOENT error), so the handler does not
respond 404 as the claim requires. -/
theorem c8_missing_dir_counterexample :
    Part001.watch ⟨"/downloads", (fun _ => none), (fun _ => []), [], false, ""⟩
        ⟨"m1", none, none, false⟩ = Except.error "ENOENT" ∧
    ∀ resp : WatchResponse,
      Part001.watch ⟨"/downloads", (fun _ => none), (fun _ => []), [], false, ""⟩
        ⟨"m1", none, none, false⟩ ≠ Except.ok resp := by
  refine ⟨rfl, ?_⟩
  intro resp h
  rw [show Part001.watch ⟨"/downloads", (fun _ => none), (fun _ => []), [], false, ""⟩
      ⟨"m1", none, none, false⟩ = Except.error "ENOENT" from rfl] at h
  exact Except.noConfusion h

/-- C8 amended: when the per-download directory exists but the recursive
listing yields no files (in particular when it is empty), both revisions
of the handler respond 404; a missing directory instead makes the handler
throw, it does not produce the 404 response. -/
theorem c8_empty_dir_404 (st : WatchState) (req : WatchRequest) (entries : List FSNode)
    (hdir : st.dirs (st.root ++ "/" ++ req._id) = some entries)
    (hempty : getFilesList (st.root ++ "/" ++ req._id) entries = []) :
    Part001.watch st req = Except.ok notFoundResponse ∧
    WatchCtrlTs.watch st req = Except.ok notFoundResponse := by
  constructor
  · unfold Part001.watch
    simp only [hdir]
    simp [hempty]
  · unfold WatchCtrlTs.watch
    simp only [hdir]
    simp [hempty]

/-- Witness for the amended C8 on an empty directory. -/
theorem c8_empty_dir_404_witness :
    ((fun (_ : String) => some ([] : List FSNode)) ("/dl" ++ "/" ++ "m2") = some [] ∧
      getFilesList ("/dl" ++ "/" ++ "m2") [] = []) ∧
    (Part001.watch ⟨"/dl", (fun _ => some []), (fun _ => []), [], false, ""⟩
        ⟨"m2", none, none, false⟩ = Except.ok notFoundResponse ∧
      WatchCtrlTs.watch ⟨"/dl", (fun _ => some []), (fun _ => []), [], false, ""⟩
        ⟨"m2", none, none, false⟩ = Except.ok notFoundResponse) :=
  ⟨⟨rfl, rfl⟩,
    c8_empty_dir_404 ⟨"/dl", (fun _ => some []), (fun _ => []), [], false, ""⟩
      ⟨"m2", none, none, false⟩ [] rfl rfl⟩

/-! ## C1 and C7: range responses and stream source selection of the
part_001 watch revision -/

/-- A picked media file forces a non-empty listing. -/
lemma files_ne_zero_of_pick (isSup : String → Bool) (files : List String) (mf : String)
    (hmf : reduceMediaFile isSup files = some mf) : ¬ files.length = 0 := by
  intro h0
  rw [List.length_eq_zero] at h0
  rw [h0] at hmf
  simp [reduceMediaFile] at hmf

/-- C1: a watch request of the part_001 revision carrying a well-formed
Range header bytes=a-b over a completed download (no live handle) answers
206 with Content-Range bytes a-b/(b-a+1) (chunk-size denominator),
Accept-Ranges bytes, Content-Length b-a+1, Content-Type video/mp4, streams
exactly the bytes [a..b] of the chosen media file, and when the end part
of the header is empty b is mediaSize-1. -/
theorem c1_range_request_206 (st : WatchState) (req : WatchRequest) (entries : List FSNode)
    (rh : String) (mediaFile : String) (a b : Int)
    (hdir : st.dirs (st.root ++ "/" ++ req._id) = some entries)
    (hmf : reduceMediaFile isPlayable1 (getFilesList (st.root ++ "/" ++ req._id) entries)
      = some mediaFile)
    (hrange : req.rangeHeader = some rh)
    (hstart : parseRangeStart rh = some a)
    (hend : parseRangeEnd (st.disk mediaFile).length rh = some b)
    (ha : 0 ≤ a) (hab : a ≤ b) (hb : b < ((st.disk mediaFile).length : Int))
    (hnotor : st.torrents.find? (fun tor => tor._id = req._id) = none) :
    ∃ resp, Part001.watch st req = Except.ok resp ∧
      resp.status = 206 ∧
      resp.contentRange = some ("bytes " ++ toString a ++ "-" ++ toString b
        ++ "/" ++ toString (b - a + 1)) ∧
      resp.acceptRanges = some "bytes" ∧
      resp.contentLength = some (toString (b - a + 1)) ∧
      resp.contentType = some "video/mp4" ∧
      resp.streamBytes = listSlice a.toNat b.toNat (st.disk mediaFile) ∧
      (endPartOf rh = "" → b = ((st.disk mediaFile).length : Int) - 1) := by
  have hne := files_ne_zero_of_pick isPlayable1 _ mediaFile hmf
  have hsr : streamRead (st.disk mediaFile)
      (some { start := some a, stop := some b }) =
      Except.ok (listSlice a.toNat b.toNat (st.disk mediaFile)) := by
    show (if 0 ≤ a ∧ a ≤ b then
        Except.ok ((st.disk mediaFile).drop a.toNat |>.take (b - a + 1).toNat)
      else Except.error "ERR_OUT_OF_RANGE")
      = Except.ok (listSlice a.toNat b.toNat (st.disk mediaFile))
    rw [if_pos ⟨ha, hab⟩]
    unfold listSlice
    have hsz : (b - a + 1).toNat = b.toNat + 1 - a.toNat := by omega
    rw [hsz]
  have hdfl : b = ((st.disk mediaFile).length : Int) - 1 → True := fun _ => trivial
  have hemp : endPartOf rh = "" → b = ((st.disk mediaFile).length : Int) - 1 := by
    intro he
    unfold parseRangeEnd at hend
    rw [if_neg (by simp [he])] at hend
    exact (Option.some_injective _ hend).symm
  unfold Part001.watch
  simp only [hdir]
  rw [if_neg hne]
  simp only [hmf, hrange, hstart, hend, hnotor, hsr]
  by_cases hg : (decide (req.device = some "chromecast") || req.transcode) = true
  · by_cases hp : st.probeOk = true
    · simp only [hg, hp, if_pos rfl]
      refine ⟨_, rfl, rfl, ?_, rfl, ?_, rfl, rfl, hemp⟩
      · simp [jsAdd, jsSub, jsNumStr]
      · simp [jsAdd, jsSub, jsNumStr]
    · simp only [hg, if_pos rfl, if_neg hp]
      refine ⟨_, rfl, rfl, ?_, rfl, ?_, rfl, rfl, hemp⟩
      · simp [jsAdd, jsSub, jsNumStr]
      · simp [jsAdd, jsSub, jsNumStr]
  · simp only [if_neg hg]
    refine ⟨_, rfl, rfl, ?_, rfl, ?_, rfl, rfl, hemp⟩
    · simp [jsAdd, jsSub, jsNumStr]
    · simp [jsAdd, jsSub, jsNumStr]

/-- Witness for C1: a 10-byte completed file and Range bytes=2-5. -/
theorem c1_range_request_206_witness :
    (parseRangeStart "bytes=2-5" = some 2 ∧
     parseRangeEnd 10 "bytes=2-5" = some 5 ∧
     (0 : Int) ≤ 2 ∧ (2 : Int) ≤ 5 ∧ (5 : Int) < 10) ∧
    (∃ resp, Part001.watch ⟨"/downloads", (fun _ => some [FSNode.file "video.mp4"]),
        (fun _ => [10, 11, 12, 13, 14, 15, 16, 17, 18, 19]), [], false, ""⟩
        ⟨"m1", some "bytes=2-5", none, false⟩ = Except.ok resp ∧
      resp.status = 206 ∧
      resp.contentRange = some ("bytes " ++ toString (2 : Int) ++ "-" ++ toString (5 : Int)
        ++ "/" ++ toString ((5 : Int) - 2 + 1)) ∧
      resp.acceptRanges = some "bytes" ∧
      resp.contentLength = some (toString ((5 : Int) - 2 + 1)) ∧
      resp.contentType = some "video/mp4" ∧
      resp.streamBytes = listSlice (2 : Int).toNat (5 : Int).toNat
        [10, 11, 12, 13, 14, 15, 16, 17, 18, 19] ∧
      (endPartOf "bytes=2-5" = "" → (5 : Int) = (10 : Int) - 1)) :=
  ⟨⟨by decide, by decide, by decide, by decide, by decide⟩,
   c1_range_request_206
     ⟨"/downloads", (fun _ => some [FSNode.file "video.mp4"]),
       (fun _ => [10, 11, 12, 13, 14, 15, 16, 17, 18, 19]), [], false, ""⟩
     ⟨"m1", some "bytes=2-5", none, false⟩ [FSNode.file "video.mp4"] "bytes=2-5"
     "/downloads/m1/video.mp4" 2 5
     rfl (by decide) rfl (by decide) (by decide) (by decide) (by decide) (by decide) rfl⟩

/-- C7: any successful non-404 response of the part_001 watch revision
reads its body through the live torrent handle's read stream with the
computed start and end options when a handle for the id exists in
torrents, and through a filesystem read stream over the chosen media file
with the same options otherwise. -/
theorem c7_stream_source_selection (st : WatchState) (req : WatchRequest)
    (entries : List FSNode) (mediaFile : String) (resp : WatchResponse)
    (hdir : st.dirs (st.root ++ "/" ++ req._id) = some entries)
    (hmf : reduceMediaFile isPlayable1 (getFilesList (st.root ++ "/" ++ req._id) entries)
      = some mediaFile)
    (hresp : Part001.watch st req = Except.ok resp) :
    resp.streamOptions = (match req.rangeHeader with
      | some range => some { start := parseRangeStart range,
                             stop := parseRangeEnd (st.disk mediaFile).length range }
      | none => none) ∧
    (match st.torrents.find? (fun tor => tor._id = req._id) with
      | some tor =>
          resp.source = some (StreamSrc.torrentFile req._id) ∧
          streamRead tor.fileBytes resp.streamOptions = Except.ok resp.streamBytes
      | none =>
          resp.source = some (StreamSrc.fsFile mediaFile) ∧
          streamRead (st.disk mediaFile) resp.streamOptions = Except.ok resp.streamBytes) := by
  have hne := files_ne_zero_of_pick isPlayable1 _ mediaFile hmf
  unfold Part001.watch at hresp
  simp only [hdir] at hresp
  rw [if_neg hne] at hresp
  simp only [hmf] at hresp
  cases hfind : st.torrents.find? (fun tor => tor._id = req._id) with
  | none =>
    simp only [hfind] at hresp ⊢
    cases hrng : req.rangeHeader with
    | none =>
      simp only [hrng] at hresp ⊢
      simp only [streamRead] at hresp
      split at hresp <;> (try split at hresp) <;> (cases hresp; exact ⟨rfl, rfl, rfl⟩)
    | some range =>
      simp only [hrng] at hresp ⊢
      cases hsr : streamRead (st.disk mediaFile)
          (some { start := parseRangeStart range,
                  stop := parseRangeEnd (st.disk mediaFile).length range }) with
      | error e =>
        simp only [hsr] at hresp
        exact Except.noConfusion hresp
      | ok body =>
        simp only [hsr] at hresp
        split at hresp <;> (try split at hresp) <;> (cases hresp; exact ⟨rfl, rfl, hsr⟩)
  | some tor =>
    simp only [hfind] at hresp ⊢
    cases hrng : req.rangeHeader with
    | none =>
      simp only [hrng] at hresp ⊢
      simp only [streamRead] at hresp
      split at hresp <;> (try split at hresp) <;> (cases hresp; exact ⟨rfl, rfl, rfl⟩)
    | some range =>
      simp only [hrng] at hresp ⊢
      cases hsr : streamRead tor.fileBytes
          (some { start := parseRangeStart range,
                  stop := parseRangeEnd (st.disk mediaFile).length range }) with
      | error e =>
        simp only [hsr] at hresp
        exact Except.noConfusion hresp
      | ok body =>
        simp only [hsr] at hresp
        split at hresp <;> (try split at hresp) <;> (cases hresp; exact ⟨rfl, rfl, hsr⟩)

/-- Witness for C7: a live torrent handle for the id serves the body. -/
theorem c7_stream_source_selection_witness :
    ((fun (_ : String) => some [FSNode.file "a.mp4"]) ("/dl" ++ "/" ++ "m1")
        = some [FSNode.file "a.mp4"] ∧
     reduceMediaFile isPlayable1 (getFilesList ("/dl" ++ "/" ++ "m1") [FSNode.file "a.mp4"])
        = some "/dl/m1/a.mp4" ∧
     Part001.watch ⟨"/dl", (fun _ => some [FSNode.file "a.mp4"]), (fun _ => [1, 2, 3]),
        [⟨"m1", [4, 5, 6]⟩], false, ""⟩ ⟨"m1", none, none, false⟩
        = Except.ok ⟨200, none, none, some "3", some "video/mp4",
            some (StreamSrc.torrentFile "m1"), none, [4, 5, 6], false, false⟩) ∧
    ((⟨200, none, none, some "3", some "video/mp4", some (StreamSrc.torrentFile "m1"),
        none, [4, 5, 6], false, false⟩ : WatchResponse).streamOptions = none ∧
     ((⟨200, none, none, some "3", some "video/mp4", some (StreamSrc.torrentFile "m1"),
        none, [4, 5, 6], false, false⟩ : WatchResponse).source
        = some (StreamSrc.torrentFile "m1") ∧
      streamRead [4, 5, 6]
        (⟨200, none, none, some "3", some "video/mp4", some (StreamSrc.torrentFile "m1"),
          none, [4, 5, 6], false, false⟩ : WatchResponse).streamOptions
        = Except.ok (⟨200, none, none, some "3", some "video/mp4",
            some (StreamSrc.torrentFile "m1"), none, [4, 5, 6], false, false⟩
              : WatchResponse).streamBytes)) :=
  ⟨⟨rfl, by decide, rfl⟩,
   c7_stream_source_selection
     ⟨"/dl", (fun _ => some [FSNode.file "a.mp4"]), (fun _ => [1, 2, 3]),
       [⟨"m1", [4, 5, 6]⟩], false, ""⟩ ⟨"m1", none, none, false⟩
     [FSNode.file "a.mp4"] "/dl/m1/a.mp4"
     ⟨200, none, none, some "3", some "video/mp4", some (StreamSrc.torrentFile "m1"),
       none, [4, 5, 6], false, false⟩
     rfl (by decide) rfl⟩
